import Mathlib

/-!
Verification development for the WJS script engine of playbymail/otto:
a shallow embedding of the lexer (wjs/lexer), the recursive-descent parser
(wjs/parser), the AST (wjs/ast), and the tree-walking interpreter
(wjs/vm), together with theorems settling the specification claims.

The repository holds two generations of some files.  The value model of
the virtual machine embedded here follows the current named files
(wjs/vm/values.go: `IsNumber` accepts only float64; wjs/vm evaluator:
arithmetic casts operands to float64), whose AST draft carries a plain
float64 in `NumberLit`.  The parser embedded here is the current
wjs/parser implementation, whose `NumberLit` carries optional int64 and
float64 fields.  The two AST generations are embedded separately as
`AstIF` (parser side) and `AstF` (VM side).

Modelling conventions:
- Go float64 is modelled as ℚ.  Every numeric value reached by a claim
  is a small integer, on which float64 arithmetic is exact, so no
  rounding behaviour is observable in any theorem below.
- Go int is modelled as Nat where the source only ever stores
  non-negative counts (positions, indices).
- The Go byte 0 sentinel of the lexer is modelled as `Option Char`
  with `none` for the sentinel; claim inputs are ASCII and free of NUL.
- Loops are modelled with an explicit fuel parameter; each recursive
  call consumes one unit.  A `none`/`outOfFuel` result means the loop
  did not complete within the given budget, so a result that is
  `outOfFuel` for every fuel models divergence of the Go loop.
-/

namespace Wjs

/-- Source position, from wjs/domain (Pos struct): 1-based line and
column, byte offset, and the script name (empty for direct input). -/
structure Pos where
  line : Nat
  column : Nat
  offset : Nat
  script : String
deriving DecidableEq, Repr

instance : Inhabited Pos := ⟨⟨0, 0, 0, ""⟩⟩

/-- Token types, from wjs/lexer/tokens.go. -/
inductive TokenType where
  | ILLEGAL | EOF
  | IDENT | NUMBER | STRING | TEMPLATE
  | PLUS | MINUS | ASTERISK | SLASH | PERCENT
  | EQEQ | BANGEQ | LT | LTEQ | GT | GTEQ
  | EQUAL
  | COMMA | SEMICOLON | COLON
  | LPAREN | RPAREN | LBRACK | RBRACK | LBRACE | RBRACE
  | DOT
  | LET | TRUE | FALSE | NULL | IF | ELSE
  | BANG
deriving DecidableEq, Repr

/-- Lexical token, from wjs/lexer/tokens.go. -/
structure Token where
  type : TokenType
  lexeme : String
  pos : Pos
deriving DecidableEq, Repr

/-- Keyword table lookup, from wjs/lexer/tokens.go `LookupIdent`. -/
def LookupIdent (ident : String) : TokenType :=
  if ident = "let" then .LET
  else if ident = "true" then .TRUE
  else if ident = "false" then .FALSE
  else if ident = "null" then .NULL
  else if ident = "if" then .IF
  else if ident = "else" then .ELSE
  else .IDENT

/-- Lexer state, from wjs/lexer/lexer.go.  `ch = none` models the Go
byte sentinel 0 at end of input. -/
structure Lexer where
  script : String
  input : List Char
  position : Nat
  readPos : Nat
  ch : Option Char
  line : Nat
  column : Nat
deriving Repr

namespace Lexer

/-- `readChar`, from wjs/lexer/lexer.go: load the byte at `readPos`
(or the 0 sentinel past the end), advance, and track line/column.
The newline test inspects the newly loaded character, as in the source. -/
def readChar (l : Lexer) : Lexer :=
  let c : Option Char :=
    if h : l.readPos < l.input.length then some (l.input.get ⟨l.readPos, h⟩) else none
  let l' : Lexer := { l with ch := c, position := l.readPos, readPos := l.readPos + 1 }
  if c = some '\n' then { l' with line := l'.line + 1, column := 1 }
  else { l' with column := l'.column + 1 }

/-- `New`, from wjs/lexer/lexer.go: line and column start at 1, then
one `readChar` primes the current character. -/
def New (script input : String) : Lexer :=
  readChar { script := script, input := input.data, position := 0, readPos := 0,
             ch := none, line := 1, column := 1 }

/-- `peekChar`, from wjs/lexer/lexer.go. -/
def peekChar (l : Lexer) : Option Char :=
  if h : l.readPos < l.input.length then some (l.input.get ⟨l.readPos, h⟩) else none

/-- `isLetter`, from wjs/lexer/lexer.go. -/
def isLetter (c : Option Char) : Bool :=
  match c with
  | none => false
  | some ch => (('a' ≤ ch && ch ≤ 'z') || ('A' ≤ ch && ch ≤ 'Z') || ch = '_')

/-- `isDigit`, from wjs/lexer/lexer.go. -/
def isDigit (c : Option Char) : Bool :=
  match c with
  | none => false
  | some ch => ('0' ≤ ch && ch ≤ '9')

/-- Slice of the input, modelling Go `l.input[a:b]`. -/
def sliceInput (l : Lexer) (a b : Nat) : String :=
  String.mk ((l.input.drop a).take (b - a))

/-- `skipWhitespace` loop, from wjs/lexer/lexer.go, with fuel. -/
def skipWhitespace : Nat → Lexer → Option Lexer
  | 0, _ => none
  | f + 1, l =>
    if l.ch = some ' ' || l.ch = some '\t' || l.ch = some '\n' || l.ch = some '\r' then
      skipWhitespace f (readChar l)
    else some l

/-- `skipLineComment`, from wjs/lexer/lexer.go: skip the two slashes,
then everything up to a newline or end of input, with fuel. -/
def skipLineCommentLoop : Nat → Lexer → Option Lexer
  | 0, _ => none
  | f + 1, l =>
    if l.ch ≠ some '\n' && l.ch.isSome then skipLineCommentLoop f (readChar l)
    else some l

def skipLineComment (f : Nat) (l : Lexer) : Option Lexer :=
  skipLineCommentLoop f (readChar (readChar l))

/-- `readIdentifier` loop, from wjs/lexer/lexer.go, with fuel; returns
the scanned lexeme and the updated lexer. -/
def readIdentifierLoop : Nat → Lexer → Option Lexer
  | 0, _ => none
  | f + 1, l =>
    if isLetter l.ch || isDigit l.ch then readIdentifierLoop f (readChar l)
    else some l

def readIdentifier (f : Nat) (l : Lexer) : Option (String × Lexer) :=
  (readIdentifierLoop f l).map (fun l' => (sliceInput l l.position l'.position, l'))

/-- `readNumber`, from wjs/lexer/lexer.go: digits, then optionally a
dot followed by at least one digit, with fuel. -/
def readDigitsLoop : Nat → Lexer → Option Lexer
  | 0, _ => none
  | f + 1, l => if isDigit l.ch then readDigitsLoop f (readChar l) else some l

def readNumber (f : Nat) (l : Lexer) : Option (String × Lexer) :=
  match readDigitsLoop f l with
  | none => none
  | some l1 =>
    if l1.ch = some '.' && isDigit (peekChar l1) then
      (readDigitsLoop f (readChar l1)).map (fun l2 => (sliceInput l l.position l2.position, l2))
    else some (sliceInput l l.position l1.position, l1)

/-- `readString` loop, from wjs/lexer/lexer.go: advance until the
delimiter or end of input; a backslash skips the next character.  The
loop stops on end of input exactly as on the delimiter, so an
unterminated string yields its partial text. -/
def readStringLoop (delim : Char) : Nat → Lexer → Option Lexer
  | 0, _ => none
  | f + 1, l =>
    let l1 := readChar l
    if l1.ch = some delim || l1.ch = none then some l1
    else if l1.ch = some '\\' then readStringLoop delim f (readChar l1)
    else readStringLoop delim f l1

def readString (delim : Char) (f : Nat) (l : Lexer) : Option (String × Lexer) :=
  (readStringLoop delim f l).map (fun l' => (sliceInput l (l.position + 1) l'.position, l'))

/-- `readTemplate`, from wjs/lexer/lexer.go: same loop shape as
`readString` with the backtick delimiter (written via its code point,
96). -/
def readTemplate (f : Nat) (l : Lexer) : Option (String × Lexer) :=
  readString (Char.ofNat 96) f l

/-- `NextToken`, from wjs/lexer/lexer.go.  Fuel bounds the internal
scanning loops and the recursive restart after a line comment; `none`
means the fuel ran out, never a lexing failure.  Note the quoted-string
cases assign token type STRING unconditionally, whether or not the
closing delimiter was found. -/
def NextToken : Nat → Lexer → Option (Token × Lexer)
  | 0, _ => none
  | f + 1, l0 =>
    match skipWhitespace (f + 1) l0 with
    | none => none
    | some l =>
      let pos : Pos := { script := l.script, line := l.line, column := l.column,
                         offset := l.position }
      let one (tt : TokenType) (lx : String) : Option (Token × Lexer) :=
        some ({ type := tt, lexeme := lx, pos := pos }, readChar l)
      let two (tt : TokenType) (lx : String) : Option (Token × Lexer) :=
        some ({ type := tt, lexeme := lx, pos := pos }, readChar (readChar l))
      match l.ch with
      | some '=' =>
        if peekChar l = some '=' then two .EQEQ "==" else one .EQUAL "="
      | some '!' =>
        if peekChar l = some '=' then two .BANGEQ "!=" else one .BANG "!"
      | some '<' =>
        if peekChar l = some '=' then two .LTEQ "<=" else one .LT "<"
      | some '>' =>
        if peekChar l = some '=' then two .GTEQ ">=" else one .GT ">"
      | some '+' => one .PLUS "+"
      | some '-' => one .MINUS "-"
      | some '*' => one .ASTERISK "*"
      | some '/' =>
        if peekChar l = some '/' then
          match skipLineComment (f + 1) l with
          | none => none
          | some l' => NextToken f l'
        else one .SLASH "/"
      | some '%' => one .PERCENT "%"
      | some ',' => one .COMMA ","
      | some ';' => one .SEMICOLON ";"
      | some ':' => one .COLON ":"
      | some '(' => one .LPAREN "("
      | some ')' => one .RPAREN ")"
      | some '[' => one .LBRACK "["
      | some ']' => one .RBRACK "]"
      | some c =>
        if c = '{' then one .LBRACE "\x7b"
        else if c = '}' then one .RBRACE "\x7d"
        else if c = '.' then one .DOT "."
        else if c = '"' then
          match readString '"' (f + 1) l with
          | none => none
          | some (s, l') => some ({ type := .STRING, lexeme := s, pos := pos }, readChar l')
        else if c = Char.ofNat 39 then
          match readString (Char.ofNat 39) (f + 1) l with
          | none => none
          | some (s, l') => some ({ type := .STRING, lexeme := s, pos := pos }, readChar l')
        else if c = Char.ofNat 96 then
          match readTemplate (f + 1) l with
          | none => none
          | some (s, l') => some ({ type := .TEMPLATE, lexeme := s, pos := pos }, readChar l')
        else if isLetter (some c) then
          match readIdentifier (f + 1) l with
          | none => none
          | some (s, l') => some ({ type := LookupIdent s, lexeme := s, pos := pos }, l')
        else if isDigit (some c) then
          match readNumber (f + 1) l with
          | none => none
          | some (s, l') => some ({ type := .NUMBER, lexeme := s, pos := pos }, l')
        else
          some ({ type := .ILLEGAL, lexeme := String.mk [c], pos := pos }, readChar l)
      | none => some ({ type := .EOF, lexeme := "", pos := pos }, readChar l)

end Lexer

/-!
The AST built by the current parser (wjs/parser/parser.go together with
wjs/ast as used by helpers.go): `NumberLit` carries optional int64 and
float64 fields, and boolean/null literal nodes exist.  Go stores AST
children as nilable interface values; the only place the parser can
actually store a nil child is the argument list of a call expression
(`args = append(args, p.parseExpression())` appends the result even when
it is nil), so argument lists are lists of `ExprOpt` while every other
child is mandatory.
-/
namespace AstIF

mutual

inductive Expr where
  | ident (start : Pos) (name : String)
  | numberLit (start : Pos) (intVal : Option Int) (floatVal : Option ℚ)
  | stringLit (start : Pos) (value : String)
  | templateLit (start : Pos) (parts : TParts)
  | booleanLit (start : Pos) (value : Bool)
  | nullLit (start : Pos)
  | binary (start : Pos) (left : Expr) (operator : String) (right : Expr)
  | unary (start : Pos) (operator : String) (operand : Expr)
  | call (start : Pos) (callee : Expr) (args : ArgsList)
  | member (start : Pos) (object : Expr) (fieldStart : Pos) (fieldName : String)
  | index (start : Pos) (target : Expr) (idx : Expr)

inductive TPart where
  | text (start : Pos) (value : String)
  | interp (start : Pos) (expr : Expr)

inductive TParts where
  | nil
  | cons (hd : TPart) (tl : TParts)

inductive ExprOpt where
  | none
  | some (e : Expr)

inductive ArgsList where
  | nil
  | cons (hd : ExprOpt) (tl : ArgsList)

end

/-- The `Pos()` method of expression nodes: each node returns its
`Start` field. -/
def Expr.pos : Expr → Pos
  | .ident s _ => s
  | .numberLit s _ _ => s
  | .stringLit s _ => s
  | .templateLit s _ => s
  | .booleanLit s _ => s
  | .nullLit s => s
  | .binary s _ _ _ => s
  | .unary s _ _ => s
  | .call s _ _ => s
  | .member s _ _ _ => s
  | .index s _ _ => s

/-- Statement nodes, from wjs/ast.  `LetStmt.Name` is an `*Ident`,
modelled by the pair of its position and name. -/
inductive Stmt where
  | letStmt (start : Pos) (nameStart : Pos) (name : String) (value : Expr)
  | assignStmt (start : Pos) (target : Expr) (value : Expr)
  | exprStmt (start : Pos) (value : Expr)

/-- The `Program` root node, from wjs/ast. -/
structure Program where
  start : Pos
  stmts : List Stmt

end AstIF

/-!
Embedding of the parser, wjs/parser/parser.go (the full recursive
descent implementation).  The parser state is the token slice and the
cursor `pos`; every parsing function returns the possibly-nil node the
Go function returns plus the state, or `outOfFuel` when the fuel budget
is exhausted, or `nilDeref` when the Go code would dereference a nil
node (`left.Pos()` on a nil expression).  No claim input reaches
`nilDeref`.
-/
namespace Parser

structure PState where
  tokens : List Token
  pos : Nat
deriving DecidableEq, Repr

/-- `peek`, from wjs/parser/parser.go: the current token, or a zero
EOF token past the end of the slice. -/
def peekT (p : PState) : Token :=
  if h : p.pos < p.tokens.length then p.tokens.get ⟨p.pos, h⟩
  else { type := .EOF, lexeme := "", pos := default }

/-- `advance`, from wjs/parser/parser.go: return the current token and
step the cursor (unless already past the end). -/
def advanceT (p : PState) : Token × PState :=
  (peekT p, if p.pos < p.tokens.length then { p with pos := p.pos + 1 } else p)

/-- `expect`, from wjs/parser/parser.go: consume the current token when
it has the wanted type. -/
def expectT (p : PState) (tt : TokenType) : Bool × PState :=
  if (peekT p).type = tt then (true, (advanceT p).2) else (false, p)

/-- Precedence levels, from wjs/parser/parser.go. -/
def LOWEST : Nat := 1
def EQUALS : Nat := 2
def LESSGREATER : Nat := 3
def SUM : Nat := 4
def PRODUCT : Nat := 5
def PREFIX : Nat := 6
def CALL : Nat := 7
def INDEX : Nat := 8

/-- The `precedences` map, from wjs/parser/parser.go. -/
def precedences : TokenType → Option Nat
  | .EQEQ => some EQUALS
  | .BANGEQ => some EQUALS
  | .LT => some LESSGREATER
  | .LTEQ => some LESSGREATER
  | .GT => some LESSGREATER
  | .GTEQ => some LESSGREATER
  | .PLUS => some SUM
  | .MINUS => some SUM
  | .ASTERISK => some PRODUCT
  | .SLASH => some PRODUCT
  | .PERCENT => some PRODUCT
  | .LPAREN => some CALL
  | .DOT => some INDEX
  | .LBRACK => some INDEX
  | _ => none

/-- `peekPrecedence`, from wjs/parser/parser.go: map lookup with the
LOWEST fallback. -/
def peekPrecedence (p : PState) : Nat :=
  (precedences (peekT p).type).getD LOWEST

/-- Result of a parsing function: the Go return value (a node or nil)
with the parser state, or the fuel sentinel, or a nil dereference
(Go panic). -/
inductive PRes (α : Type) where
  | outOfFuel
  | nilDeref
  | res (val : α) (st : PState)
deriving Repr

/-- Whether the binary-operator switch arm of the expression loop
applies, from the switch in `parseExpressionWithPrecedence`. -/
def isBinaryOpToken : TokenType → Bool
  | .PLUS | .MINUS | .ASTERISK | .SLASH | .PERCENT
  | .EQEQ | .BANGEQ | .LT | .LTEQ | .GT | .GTEQ => true
  | _ => false

/-- Model of `strconv.Atoi` on the lexemes the lexer can emit for
NUMBER tokens (digits, optionally a dot and digits) and other short
inputs: an optional sign followed by one or more digits.  The int64
overflow bound is not modelled; every claim input is tiny. -/
def goAtoi (s : String) : Option Int :=
  let core (ds : List Char) : Option Nat :=
    if ds = [] || !ds.all (fun c => '0' ≤ c && c ≤ '9') then Option.none
    else Option.some (ds.foldl (fun acc c => acc * 10 + (c.toNat - '0'.toNat)) 0)
  match s.data with
  | '-' :: rest => (core rest).map (fun n => -(n : Int))
  | '+' :: rest => (core rest).map (fun n => (n : Int))
  | ds => (core ds).map (fun n => (n : Int))

/-- Model of `strconv.ParseFloat` restricted to the lexemes the lexer
can emit for NUMBER tokens: digits, optionally a dot and more digits.
The result is the exact decimal rational; see the header note on
float64. -/
def goParseFloat (s : String) : Option ℚ :=
  let digits? (ds : List Char) : Option Nat :=
    if ds = [] || !ds.all (fun c => '0' ≤ c && c ≤ '9') then Option.none
    else Option.some (ds.foldl (fun acc c => acc * 10 + (c.toNat - '0'.toNat)) 0)
  match s.split (fun c => c = '.') with
  | [intPart] => (digits? intPart.data).map (fun n => (n : ℚ))
  | [intPart, fracPart] =>
    match digits? intPart.data, digits? fracPart.data with
    | Option.some n, Option.some m =>
      Option.some ((n : ℚ) + (m : ℚ) / ((10 : ℚ) ^ fracPart.length))
    | _, _ => Option.none
  | _ => Option.none

/-- `parseIdentifier`, from wjs/parser/parser.go (no recursion). -/
def parseIdentifier (s : PState) : Option AstIF.Expr × PState :=
  let (token, s') := advanceT s
  (some (.ident token.pos token.lexeme), s')

/-- `parseNumberLiteral`, from wjs/parser/parser.go: try integer
parsing first, then floating point, else nil. -/
def parseNumberLiteral (s : PState) : Option AstIF.Expr × PState :=
  let (token, s') := advanceT s
  match goAtoi token.lexeme with
  | Option.some n => (some (.numberLit token.pos (Option.some n) Option.none), s')
  | Option.none =>
    match goParseFloat token.lexeme with
    | Option.some q => (some (.numberLit token.pos Option.none (Option.some q)), s')
    | Option.none => (none, s')

/-- `parseStringLiteral`, from wjs/parser/parser.go. -/
def parseStringLiteral (s : PState) : Option AstIF.Expr × PState :=
  let (token, s') := advanceT s
  (some (.stringLit token.pos token.lexeme), s')

/-- `parseTemplateLiteral`, from wjs/parser/parser.go: the raw template
lexeme is wrapped as a single text part; the source carries a TODO for
proper interpolation splitting. -/
def parseTemplateLiteral (s : PState) : Option AstIF.Expr × PState :=
  let (token, s') := advanceT s
  (some (.templateLit token.pos (.cons (.text token.pos token.lexeme) .nil)), s')

/-- `parseBooleanOrNullLiteral`, from wjs/parser/parser.go. -/
def parseBooleanOrNullLiteral (s : PState) : Option AstIF.Expr × PState :=
  let (token, s') := advanceT s
  match token.type with
  | .TRUE => (some (.booleanLit token.pos true), s')
  | .FALSE => (some (.booleanLit token.pos false), s')
  | .NULL => (some (.nullLit token.pos), s')
  | _ => (none, s')

def toExprOpt : Option AstIF.Expr → AstIF.ExprOpt
  | Option.none => .none
  | Option.some e => .some e

def argsOf : List AstIF.ExprOpt → AstIF.ArgsList
  | [] => .nil
  | a :: rest => .cons a (argsOf rest)

mutual

/-- `parseStatement`, from wjs/parser/parser.go. -/
def parseStatement : Nat → PState → PRes (Option AstIF.Stmt)
  | 0, _ => .outOfFuel
  | f + 1, s =>
    match (peekT s).type with
    | .LET => parseLetStatement f s
    | .IDENT => parseIdentStatement f s
    | _ => parseExpressionStatement f s

/-- `parseLetStatement`, from wjs/parser/parser.go.  Note the trailing
semicolon is consumed with `expect` whose result is discarded (the
source comment reads "optional semicolon"). -/
def parseLetStatement : Nat → PState → PRes (Option AstIF.Stmt)
  | 0, _ => .outOfFuel
  | f + 1, s =>
    let (letTok, s1) := advanceT s
    if (peekT s1).type ≠ .IDENT then .res none s1
    else
      let namePos := (peekT s1).pos
      let (nameTok, s2) := advanceT s1
      let (ok, s3) := expectT s2 .EQUAL
      if !ok then .res none s3
      else
        match parseExpression f s3 with
        | .outOfFuel => .outOfFuel
        | .nilDeref => .nilDeref
        | .res Option.none s4 => .res none s4
        | .res (Option.some value) s4 =>
          let (_, s5) := expectT s4 .SEMICOLON
          .res (some (.letStmt letTok.pos namePos nameTok.lexeme value)) s5

/-- `parseIdentStatement`, from wjs/parser/parser.go: a single token of
lookahead after the identifier decides assignment versus expression. -/
def parseIdentStatement : Nat → PState → PRes (Option AstIF.Stmt)
  | 0, _ => .outOfFuel
  | f + 1, s =>
    if h : s.pos + 1 < s.tokens.length then
      if (s.tokens.get ⟨s.pos + 1, h⟩).type = .EQUAL then parseAssignmentStatement f s
      else parseExpressionStatement f s
    else parseExpressionStatement f s

/-- `parseAssignmentStatement`, from wjs/parser/parser.go. -/
def parseAssignmentStatement : Nat → PState → PRes (Option AstIF.Stmt)
  | 0, _ => .outOfFuel
  | f + 1, s =>
    match parseExpression f s with
    | .outOfFuel => .outOfFuel
    | .nilDeref => .nilDeref
    | .res Option.none s1 => .res none s1
    | .res (Option.some target) s1 =>
      let start := target.pos
      let (ok, s2) := expectT s1 .EQUAL
      if !ok then .res none s2
      else
        match parseExpression f s2 with
        | .outOfFuel => .outOfFuel
        | .nilDeref => .nilDeref
        | .res Option.none s3 => .res none s3
        | .res (Option.some value) s3 =>
          let (_, s4) := expectT s3 .SEMICOLON
          .res (some (.assignStmt start target value)) s4

/-- `parseExpressionStatement`, from wjs/parser/parser.go; the trailing
semicolon is again consumed by a discarded `expect`. -/
def parseExpressionStatement : Nat → PState → PRes (Option AstIF.Stmt)
  | 0, _ => .outOfFuel
  | f + 1, s =>
    match parseExpression f s with
    | .outOfFuel => .outOfFuel
    | .nilDeref => .nilDeref
    | .res Option.none s1 => .res none s1
    | .res (Option.some expr) s1 =>
      let (_, s2) := expectT s1 .SEMICOLON
      .res (some (.exprStmt expr.pos expr)) s2

/-- `parseExpression`, from wjs/parser/parser.go. -/
def parseExpression : Nat → PState → PRes (Option AstIF.Expr)
  | 0, _ => .outOfFuel
  | f + 1, s => parseExpressionWithPrecedence f LOWEST s

/-- `parseExpressionWithPrecedence`, from wjs/parser/parser.go: a
primary expression followed by the infix loop. -/
def parseExpressionWithPrecedence : Nat → Nat → PState → PRes (Option AstIF.Expr)
  | 0, _, _ => .outOfFuel
  | f + 1, precedence, s =>
    match parsePrimaryExpression f s with
    | .outOfFuel => .outOfFuel
    | .nilDeref => .nilDeref
    | .res Option.none s1 => .res none s1
    | .res (Option.some left) s1 => parseInfixLoop f precedence (Option.some left) s1

/-- The `for` loop of `parseExpressionWithPrecedence`: while the next
token is neither a semicolon nor EOF and binds tighter than the current
precedence, extend `left`.  The loop variable may become nil when an
infix parse fails, exactly as in the source. -/
def parseInfixLoop : Nat → Nat → Option AstIF.Expr → PState → PRes (Option AstIF.Expr)
  | 0, _, _, _ => .outOfFuel
  | f + 1, precedence, left, s =>
    if (peekT s).type ≠ .SEMICOLON ∧ (peekT s).type ≠ .EOF ∧ precedence < peekPrecedence s then
      if isBinaryOpToken (peekT s).type then
        match parseBinaryExpression f left s with
        | .outOfFuel => .outOfFuel
        | .nilDeref => .nilDeref
        | .res left' s' => parseInfixLoop f precedence left' s'
      else
        match (peekT s).type with
        | .LPAREN =>
          match parseCallExpression f left s with
          | .outOfFuel => .outOfFuel
          | .nilDeref => .nilDeref
          | .res left' s' => parseInfixLoop f precedence left' s'
        | .DOT =>
          match parseMemberExpression f left s with
          | .outOfFuel => .outOfFuel
          | .nilDeref => .nilDeref
          | .res left' s' => parseInfixLoop f precedence left' s'
        | .LBRACK =>
          match parseIndexExpression f left s with
          | .outOfFuel => .outOfFuel
          | .nilDeref => .nilDeref
          | .res left' s' => parseInfixLoop f precedence left' s'
        | _ => .res left s
    else .res left s

/-- `parsePrimaryExpression`, from wjs/parser/parser.go; the default
arm returns nil without consuming a token. -/
def parsePrimaryExpression : Nat → PState → PRes (Option AstIF.Expr)
  | 0, _ => .outOfFuel
  | f + 1, s =>
    match (peekT s).type with
    | .IDENT => let (e, s') := parseIdentifier s; .res e s'
    | .NUMBER => let (e, s') := parseNumberLiteral s; .res e s'
    | .STRING => let (e, s') := parseStringLiteral s; .res e s'
    | .TEMPLATE => let (e, s') := parseTemplateLiteral s; .res e s'
    | .TRUE => let (e, s') := parseBooleanOrNullLiteral s; .res e s'
    | .FALSE => let (e, s') := parseBooleanOrNullLiteral s; .res e s'
    | .NULL => let (e, s') := parseBooleanOrNullLiteral s; .res e s'
    | .MINUS => parseUnaryExpression f s
    | .BANG => parseUnaryExpression f s
    | .LPAREN => parseGroupedExpression f s
    | _ => .res none s

/-- `parseUnaryExpression`, from wjs/parser/parser.go. -/
def parseUnaryExpression : Nat → PState → PRes (Option AstIF.Expr)
  | 0, _ => .outOfFuel
  | f + 1, s =>
    let (token, s1) := advanceT s
    match parseExpressionWithPrecedence f PREFIX s1 with
    | .outOfFuel => .outOfFuel
    | .nilDeref => .nilDeref
    | .res Option.none s2 => .res none s2
    | .res (Option.some operand) s2 =>
      .res (some (.unary token.pos token.lexeme operand)) s2

/-- `parseGroupedExpression`, from wjs/parser/parser.go. -/
def parseGroupedExpression : Nat → PState → PRes (Option AstIF.Expr)
  | 0, _ => .outOfFuel
  | f + 1, s =>
    let (_, s1) := advanceT s
    match parseExpression f s1 with
    | .outOfFuel => .outOfFuel
    | .nilDeref => .nilDeref
    | .res expr s2 =>
      let (ok, s3) := expectT s2 .RPAREN
      if !ok then .res none s3 else .res expr s3

/-- `parseBinaryExpression`, from wjs/parser/parser.go: consume the
operator, parse the right side at the operator's precedence, and attach
the left operand (whose `Pos()` Go would call, panicking when nil). -/
def parseBinaryExpression : Nat → Option AstIF.Expr → PState → PRes (Option AstIF.Expr)
  | 0, _, _ => .outOfFuel
  | f + 1, left, s =>
    let (token, s1) := advanceT s
    let precedence := (precedences token.type).getD 0
    match parseExpressionWithPrecedence f precedence s1 with
    | .outOfFuel => .outOfFuel
    | .nilDeref => .nilDeref
    | .res Option.none s2 => .res none s2
    | .res (Option.some right) s2 =>
      match left with
      | Option.none => .nilDeref
      | Option.some l => .res (some (.binary l.pos l token.lexeme right)) s2

/-- `parseCallExpression`, from wjs/parser/parser.go.  The Go code
reads `callee.Pos()` before anything else, and appends every
`parseExpression` result (possibly nil) to the argument slice. -/
def parseCallExpression : Nat → Option AstIF.Expr → PState → PRes (Option AstIF.Expr)
  | 0, _, _ => .outOfFuel
  | f + 1, callee, s =>
    match callee with
    | Option.none => .nilDeref
    | Option.some calleeE =>
      let start := calleeE.pos
      let (_, s1) := advanceT s
      let argsStep : PRes (List AstIF.ExprOpt × PState) :=
        if (peekT s1).type ≠ .RPAREN then
          match parseExpression f s1 with
          | .outOfFuel => .outOfFuel
          | .nilDeref => .nilDeref
          | .res a s2 =>
            match parseCallArgsLoop f [toExprOpt a] s2 with
            | .outOfFuel => .outOfFuel
            | .nilDeref => .nilDeref
            | .res args s3 => .res (args, s3) s3
        else .res ([], s1) s1
      match argsStep with
      | .outOfFuel => .outOfFuel
      | .nilDeref => .nilDeref
      | .res (args, s4) _ =>
        let (ok, s5) := expectT s4 .RPAREN
        if !ok then .res none s5
        else .res (some (.call start calleeE (argsOf args))) s5

/-- The `for p.expect(COMMA)` loop of `parseCallExpression`. -/
def parseCallArgsLoop : Nat → List AstIF.ExprOpt → PState → PRes (List AstIF.ExprOpt)
  | 0, _, _ => .outOfFuel
  | f + 1, acc, s =>
    let (ok, s1) := expectT s .COMMA
    if ok then
      match parseExpression f s1 with
      | .outOfFuel => .outOfFuel
      | .nilDeref => .nilDeref
      | .res a s2 => parseCallArgsLoop f (acc ++ [toExprOpt a]) s2
    else .res acc s1

/-- `parseMemberExpression`, from wjs/parser/parser.go. -/
def parseMemberExpression : Nat → Option AstIF.Expr → PState → PRes (Option AstIF.Expr)
  | 0, _, _ => .outOfFuel
  | _ + 1, object, s =>
    match object with
    | Option.none => .nilDeref
    | Option.some objectE =>
      let start := objectE.pos
      let (_, s1) := advanceT s
      if (peekT s1).type ≠ .IDENT then .res none s1
      else
        let fieldPos := (peekT s1).pos
        let (fieldTok, s2) := advanceT s1
        .res (some (.member start objectE fieldPos fieldTok.lexeme)) s2

/-- `parseIndexExpression`, from wjs/parser/parser.go. -/
def parseIndexExpression : Nat → Option AstIF.Expr → PState → PRes (Option AstIF.Expr)
  | 0, _, _ => .outOfFuel
  | f + 1, target, s =>
    match target with
    | Option.none => .nilDeref
    | Option.some targetE =>
      let start := targetE.pos
      let (_, s1) := advanceT s
      match parseExpression f s1 with
      | .outOfFuel => .outOfFuel
      | .nilDeref => .nilDeref
      | .res Option.none s2 => .res none s2
      | .res (Option.some idx) s2 =>
        let (ok, s3) := expectT s2 .RBRACK
        if !ok then .res none s3
        else .res (some (.index start targetE idx)) s3

end

/-- The statement loop of `ParseProgram`: while the current token is
not EOF, parse a statement and append it when non-nil.  `none` means
the fuel ran out before the loop finished; the Go loop has no other way
to stop than reaching EOF. -/
def parseProgramLoop : Nat → PState → List AstIF.Stmt → Option (List AstIF.Stmt × PState)
  | 0, _, _ => none
  | f + 1, s, acc =>
    if (peekT s).type = .EOF then some (acc.reverse, s)
    else
      match parseStatement f s with
      | .outOfFuel => none
      | .nilDeref => none
      | .res stmt s' =>
        parseProgramLoop f s' (match stmt with | Option.some st => st :: acc | Option.none => acc)

/-- `ParseProgram`, from wjs/parser/parser.go: an empty token slice
gives an empty program; otherwise the statement loop runs until EOF.
A `none` result means the loop did not finish within the fuel. -/
def ParseProgram (fuel : Nat) (tokens : List Token) : Option AstIF.Program :=
  match tokens with
  | [] => some { start := default, stmts := [] }
  | t :: _ =>
    (parseProgramLoop fuel { tokens := tokens, pos := 0 } []).map
      (fun r => { start := t.pos, stmts := r.1 })

end Parser

/-!
The AST generation the VM evaluator (the full wjs/vm implementation)
is written against: `NumberLit` carries a plain float64 value and there
are no boolean or null literal nodes.  Lists of children use dedicated
list inductives so that the evaluator can recurse structurally.
-/
namespace AstF

mutual

inductive Expr where
  | ident (start : Pos) (name : String)
  | numberLit (start : Pos) (value : ℚ)
  | stringLit (start : Pos) (value : String)
  | templateLit (start : Pos) (parts : TParts)
  | binary (start : Pos) (left : Expr) (operator : String) (right : Expr)
  | unary (start : Pos) (operator : String) (operand : Expr)
  | call (start : Pos) (callee : Expr) (args : ExprList)
  | member (start : Pos) (object : Expr) (fieldStart : Pos) (fieldName : String)
  | index (start : Pos) (target : Expr) (idx : Expr)

inductive TPart where
  | text (start : Pos) (value : String)
  | interp (start : Pos) (expr : Expr)

inductive TParts where
  | nil
  | cons (hd : TPart) (tl : TParts)

inductive ExprList where
  | nil
  | cons (hd : Expr) (tl : ExprList)

end

/-- The `Pos()` method of expression nodes. -/
def Expr.pos : Expr → Pos
  | .ident s _ => s
  | .numberLit s _ => s
  | .stringLit s _ => s
  | .templateLit s _ => s
  | .binary s _ _ _ => s
  | .unary s _ _ => s
  | .call s _ _ => s
  | .member s _ _ _ => s
  | .index s _ _ => s

/-- Statement nodes of this AST generation. -/
inductive Stmt where
  | letStmt (start : Pos) (nameStart : Pos) (name : String) (value : Expr)
  | assignStmt (start : Pos) (target : Expr) (value : Expr)
  | exprStmt (start : Pos) (value : Expr)

def Stmt.pos : Stmt → Pos
  | .letStmt s _ _ _ => s
  | .assignStmt s _ _ => s
  | .exprStmt s _ => s

end AstF

/-!
The runtime value model, from wjs/vm/values.go (current named file:
numbers are float64 only — `IsNumber` accepts only float64) and
wjs/vm/builtin.go.  A Go `Value` is a nilable interface; `GoVal.null`
models the nil interface, which is also the WJS null value.  The three
built-in functions are the only `Callable` implementations the VM ever
creates (`RegisterBuiltins`), each a single heap object, so a callable
value is identified by which built-in it is.
-/
namespace Vm

mutual

inductive Value where
  | float (q : ℚ)
  | str (s : String)
  | bool (b : Bool)
  | arr (elems : ValueList)
  | obj (fields : ObjFields)
  | callable (b : BuiltinId)
  | mapv

/-- A Go `Value` interface slot: nil or a boxed value. -/
inductive GoVal where
  | null
  | val (v : Value)

inductive ValueList where
  | nil
  | cons (hd : GoVal) (tl : ValueList)

inductive ObjFields where
  | nil
  | cons (key : String) (v : GoVal) (tl : ObjFields)

/-- The built-in functions registered by `RegisterBuiltins`. -/
inductive BuiltinId where
  | print
  | load
  | save

end

/-- Runtime error with position, from wjs/vm/values.go. -/
structure RuntimeError where
  pos : Pos
  message : String
deriving DecidableEq, Repr

/-- `IsNumber`, from wjs/vm/values.go (current version): only float64
is a number. -/
def IsNumber : GoVal → Bool
  | .val (.float _) => true
  | _ => false

/-- `IsString`, from wjs/vm/values.go. -/
def IsString : GoVal → Bool
  | .val (.str _) => true
  | _ => false

/-- `IsBool`, from wjs/vm/values.go. -/
def IsBool : GoVal → Bool
  | .val (.bool _) => true
  | _ => false

/-- `IsNull`, from wjs/vm/values.go. -/
def IsNull : GoVal → Bool
  | .null => true
  | _ => false

/-- `IsArray`, from wjs/vm/values.go. -/
def IsArray : GoVal → Bool
  | .val (.arr _) => true
  | _ => false

/-- `IsObject`, from wjs/vm/values.go. -/
def IsObject : GoVal → Bool
  | .val (.obj _) => true
  | _ => false

def BuiltinId.name : BuiltinId → String
  | .print => "print"
  | .load => "load"
  | .save => "save"

def BuiltinId.arity : BuiltinId → Int
  | .print => -1
  | .load => 1
  | .save => 2

/-- Go `strconv.FormatFloat(val, 'f', -1, 64)` produces the shortest
decimal that round-trips; for a float64 holding an integer this is the
plain decimal without a trailing ".0".  Only integral floats are ever
stringified by a claim, and on those this model is exact. -/
def floatToString (q : ℚ) : String :=
  if q.den = 1 then toString q.num else toString q

mutual

/-- `Stringify`, from wjs/vm/values.go, on a Go interface slot: nil
prints as "null". -/
def stringifyGo : GoVal → String
  | .null => "null"
  | .val v => stringifyVal v

def stringifyVal : Value → String
  | .bool b => if b then "true" else "false"
  | .float q => floatToString q
  | .str s => s
  | .arr xs => "[" ++ stringifyList xs ++ "]"
  | .obj fs => "\x7b" ++ stringifyFields fs ++ "\x7d"
  | .callable b => "&builtinFunc " ++ b.name
  | .mapv => "&Map"

def stringifyList : ValueList → String
  | .nil => ""
  | .cons hd .nil => stringifyGo hd
  | .cons hd tl => stringifyGo hd ++ ", " ++ stringifyList tl

def stringifyFields : ObjFields → String
  | .nil => ""
  | .cons k v .nil => k ++ ": " ++ stringifyGo v
  | .cons k v tl => k ++ ": " ++ stringifyGo v ++ ", " ++ stringifyFields tl

end

mutual

/-- `Equal`, from wjs/vm/values.go: `reflect.DeepEqual`.  Values of
different dynamic types (including nil against anything) are unequal.
Each built-in is a single pointer created once by `RegisterBuiltins`,
so two callable values are deeply equal exactly when they are the same
built-in.  Object fields are compared in canonical order; Go compares
maps key-wise, but no script can construct an Object (there is no
object literal syntax and `load` fails), so the difference is
unreachable. -/
def goValEq : GoVal → GoVal → Bool
  | .null, .null => true
  | .val a, .val b => valEq a b
  | _, _ => false

def valEq : Value → Value → Bool
  | .float a, .float b => a == b
  | .str a, .str b => a == b
  | .bool a, .bool b => a == b
  | .arr a, .arr b => listEq a b
  | .obj a, .obj b => fieldsEq a b
  | .callable a, .callable b => a.name == b.name
  | .mapv, .mapv => true
  | _, _ => false

def listEq : ValueList → ValueList → Bool
  | .nil, .nil => true
  | .cons a as, .cons b bs => goValEq a b && listEq as bs
  | _, _ => false

def fieldsEq : ObjFields → ObjFields → Bool
  | .nil, .nil => true
  | .cons ka va as, .cons kb vb bs => ka == kb && goValEq va vb && fieldsEq as bs
  | _, _ => false

end

/-- `NewRuntimeError`: position plus a formatted message. -/
def NewRuntimeError (pos : Pos) (message : String) : RuntimeError :=
  { pos := pos, message := message }

/-- The interpreter state: the flat global environment (a Go map from
name to Value, modelled as an association list whose entries are
overwritten in place) and the script name.  The stdout writes of
`print` are an external side effect and are not modelled. -/
structure VMSt where
  vars : List (String × GoVal)
  script : String

/-- Go map read `vm.vars[name]` with its ok flag. -/
def lookupVar : List (String × GoVal) → String → Option GoVal
  | [], _ => none
  | (k, v) :: rest, name => if k = name then some v else lookupVar rest name

/-- Go map write `vm.vars[name] = value`: overwrite an existing entry
or add a new one. -/
def setVar : List (String × GoVal) → String → GoVal → List (String × GoVal)
  | [], name, v => [(name, v)]
  | (k, w) :: rest, name, v =>
    if k = name then (k, v) :: rest else (k, w) :: setVar rest name v

/-- `New`, from the wjs/vm evaluator: a fresh environment pre-seeded
with the built-ins from `RegisterBuiltins` (Go iterates the returned
map; the insertion order below is immaterial to lookups). -/
def New (script : String) : VMSt :=
  { vars := [("print", .val (.callable .print)),
             ("load", .val (.callable .load)),
             ("save", .val (.callable .save))],
    script := script }

/-- Lookup in an Object's field map, Go `objMap[name]` with ok flag. -/
def fieldsLookup : ObjFields → String → Option GoVal
  | .nil, _ => none
  | .cons k v rest, name => if k = name then some v else fieldsLookup rest name

def ValueList.length : ValueList → Nat
  | .nil => 0
  | .cons _ tl => 1 + tl.length

def ValueList.get? : ValueList → Nat → Option GoVal
  | .nil, _ => none
  | .cons hd _, 0 => some hd
  | .cons _ tl, n + 1 => tl.get? n

/-- Go `int(f)` on a float64: truncation toward zero (the model is
exact because the rational is exact). -/
def ratTrunc (q : ℚ) : Int := Int.tdiv q.num (q.den : Int)

/-- The float64 payload of a value already known to satisfy `IsNumber`;
Go reaches this via an unchecked type assertion that cannot fail after
the `IsNumber` guard (any other shape would be a panic, unreachable). -/
def getFloat : GoVal → ℚ
  | .val (.float q) => q
  | _ => 0

/-- `Call` of a built-in function, from wjs/vm/builtin.go: the arity
check of `builtinFunc.Call`, then the function body from
`RegisterBuiltins`.  `print` joins the stringified arguments with
spaces and writes them to stdout (the write is not modelled) and
returns nil.  `load`/`save` call the default collaborators, which
always fail.  A script value can never be the `*Map` pointer `save`
asserts for, and `load` never succeeds, so `mapv` is unreachable. -/
def builtinCall (b : BuiltinId) (pos : Pos) (args : List GoVal) :
    Except RuntimeError GoVal :=
  if 0 ≤ b.arity ∧ (args.length : Int) ≠ b.arity then
    .error (NewRuntimeError pos
      (b.name ++ " expects " ++ toString b.arity ++ " arguments, got " ++
        toString args.length))
  else
    match b with
    | .print =>
      let _out := String.intercalate " " (args.map stringifyGo)
      .ok .null
    | .load =>
      match args with
      | [a] =>
        match a with
        | .val (.str _path) =>
          .error (NewRuntimeError pos "load error: load not implemented")
        | _ => .error (NewRuntimeError pos "load expects a string path")
      | _ => .error (NewRuntimeError pos "load expects a string path")
    | .save =>
      match args with
      | [m, p] =>
        match p with
        | .val (.str _path) =>
          match m with
          | .val .mapv => .error (NewRuntimeError pos "save error: save not implemented")
          | _ => .error (NewRuntimeError pos "save expects a Map as the first argument")
        | _ => .error (NewRuntimeError pos "save expects a string as the second argument")
      | _ => .error (NewRuntimeError pos "save expects a string as the second argument")

/-- `evalAdd`, from the wjs/vm evaluator: numeric addition (on float64,
after the `IsNumber` guards) or string concatenation. -/
def evalAdd (left right : GoVal) (pos : Pos) : Except RuntimeError GoVal :=
  if IsNumber left && IsNumber right then
    .ok (.val (.float (getFloat left + getFloat right)))
  else
    match left, right with
    | .val (.str a), .val (.str b) => .ok (.val (.str (a ++ b)))
    | _, _ => .error (NewRuntimeError pos "type mismatch for + operator")

/-- `evalSubtract`, from the wjs/vm evaluator. -/
def evalSubtract (left right : GoVal) (pos : Pos) : Except RuntimeError GoVal :=
  if IsNumber left && IsNumber right then
    .ok (.val (.float (getFloat left - getFloat right)))
  else .error (NewRuntimeError pos "- operator requires numbers")

/-- `evalMultiply`, from the wjs/vm evaluator. -/
def evalMultiply (left right : GoVal) (pos : Pos) : Except RuntimeError GoVal :=
  if IsNumber left && IsNumber right then
    .ok (.val (.float (getFloat left * getFloat right)))
  else .error (NewRuntimeError pos "* operator requires numbers")

/-- `evalDivide`, from the wjs/vm evaluator: a zero right operand is a
"division by zero" runtime error before any division happens. -/
def evalDivide (left right : GoVal) (pos : Pos) : Except RuntimeError GoVal :=
  if IsNumber left && IsNumber right then
    let rightNum := getFloat right
    if rightNum = 0 then .error (NewRuntimeError pos "division by zero")
    else .ok (.val (.float (getFloat left / rightNum)))
  else .error (NewRuntimeError pos "/ operator requires numbers")

/-- `evalModulus`, from the wjs/vm evaluator: a zero right operand is a
"modulus by zero" runtime error; otherwise both operands are truncated
to int64 and the Go `%` (remainder with the dividend's sign, `Int.tmod`)
is applied, then converted back to float64. -/
def evalModulus (left right : GoVal) (pos : Pos) : Except RuntimeError GoVal :=
  if IsNumber left && IsNumber right then
    let rightNum := getFloat right
    if rightNum = 0 then .error (NewRuntimeError pos "modulus by zero")
    else .ok (.val (.float ((Int.tmod (ratTrunc (getFloat left)) (ratTrunc rightNum) : Int) : ℚ)))
  else .error (NewRuntimeError pos "% operator requires numbers")

/-- `evalLess`, from the wjs/vm evaluator. -/
def evalLess (left right : GoVal) (pos : Pos) : Except RuntimeError GoVal :=
  if IsNumber left && IsNumber right then
    .ok (.val (.bool (getFloat left < getFloat right)))
  else .error (NewRuntimeError pos "< operator requires numbers")

/-- `evalGreater`, from the wjs/vm evaluator. -/
def evalGreater (left right : GoVal) (pos : Pos) : Except RuntimeError GoVal :=
  if IsNumber left && IsNumber right then
    .ok (.val (.bool (getFloat right < getFloat left)))
  else .error (NewRuntimeError pos "> operator requires numbers")

/-- `evalLessEqual`, from the wjs/vm evaluator. -/
def evalLessEqual (left right : GoVal) (pos : Pos) : Except RuntimeError GoVal :=
  if IsNumber left && IsNumber right then
    .ok (.val (.bool (getFloat left ≤ getFloat right)))
  else .error (NewRuntimeError pos "<= operator requires numbers")

/-- `evalGreaterEqual`, from the wjs/vm evaluator. -/
def evalGreaterEqual (left right : GoVal) (pos : Pos) : Except RuntimeError GoVal :=
  if IsNumber left && IsNumber right then
    .ok (.val (.bool (getFloat right ≤ getFloat left)))
  else .error (NewRuntimeError pos ">= operator requires numbers")

/-- Dispatch on the operator lexeme, the switch of `evalBinaryExpr`. -/
def binaryDispatch (op : String) (left right : GoVal) (pos : Pos) :
    Except RuntimeError GoVal :=
  match op with
  | "+" => evalAdd left right pos
  | "-" => evalSubtract left right pos
  | "*" => evalMultiply left right pos
  | "/" => evalDivide left right pos
  | "%" => evalModulus left right pos
  | "==" => .ok (.val (.bool (goValEq left right)))
  | "!=" => .ok (.val (.bool (!goValEq left right)))
  | "<" => evalLess left right pos
  | ">" => evalGreater left right pos
  | "<=" => evalLessEqual left right pos
  | ">=" => evalGreaterEqual left right pos
  | _ => .error (NewRuntimeError pos ("unknown binary operator: " ++ op))

mutual

/-- `evalExpr`, from the wjs/vm evaluator.  Expressions read but never
rebind environment entries, so only the value (or error) is returned. -/
def evalExpr (vm : VMSt) : AstF.Expr → Except RuntimeError GoVal
  | .numberLit _ q => .ok (.val (.float q))
  | .stringLit _ s => .ok (.val (.str s))
  | .ident p name =>
    match lookupVar vm.vars name with
    | some v => .ok v
    | none => .error (NewRuntimeError p ("undefined variable: " ++ name))
  | .binary p left op right =>
    match evalExpr vm left with
    | .error e => .error e
    | .ok l =>
      match evalExpr vm right with
      | .error e => .error e
      | .ok r => binaryDispatch op l r p
  | .unary p op operand =>
    match evalExpr vm operand with
    | .error e => .error e
    | .ok v =>
      match op with
      | "-" =>
        match v with
        | .val (.float q) => .ok (.val (.float (-q)))
        | _ => .error (NewRuntimeError p "unary - requires a number")
      | "!" =>
        match v with
        | .val (.bool b) => .ok (.val (.bool (!b)))
        | _ => .error (NewRuntimeError p "unary ! requires a boolean")
      | _ => .error (NewRuntimeError p ("unknown unary operator: " ++ op))
  | .call p callee args =>
    match evalExpr vm callee with
    | .error e => .error e
    | .ok calleeV =>
      match calleeV with
      | .val (.callable b) =>
        match evalArgs vm args with
        | .error e => .error e
        | .ok argVals => builtinCall b p argVals
      | _ => .error (NewRuntimeError p "value is not callable")
  | .member p object _ fieldName =>
    match evalExpr vm object with
    | .error e => .error e
    | .ok objV =>
      match objV with
      | .val (.obj fields) =>
        match fieldsLookup fields fieldName with
        | some v => .ok v
        | none =>
          .error (NewRuntimeError p ("property '" ++ fieldName ++ "' not found"))
      | _ => .error (NewRuntimeError p "cannot access property of non-object")
  | .index p target idx =>
    match evalExpr vm target with
    | .error e => .error e
    | .ok targetV =>
      match evalExpr vm idx with
      | .error e => .error e
      | .ok idxV =>
        match targetV with
        | .val (.arr elems) =>
          match idxV with
          | .val (.float q) =>
            let i := ratTrunc q
            if i < 0 ∨ (elems.length : Int) ≤ i then
              .error (NewRuntimeError p ("array index out of bounds: " ++ toString i))
            else
              match elems.get? i.toNat with
              | some v => .ok v
              | none => .error (NewRuntimeError p ("array index out of bounds: " ++ toString i))
          | _ => .error (NewRuntimeError p "array index must be a number")
        | .val (.obj fields) =>
          match idxV with
          | .val (.str key) =>
            match fieldsLookup fields key with
            | some v => .ok v
            | none => .error (NewRuntimeError p ("key '" ++ key ++ "' not found"))
          | _ => .error (NewRuntimeError p "object key must be a string")
        | _ => .error (NewRuntimeError p "cannot index non-array/non-object")
  | .templateLit _ parts =>
    match evalParts vm parts with
    | .error e => .error e
    | .ok s => .ok (.val (.str s))

/-- The left-to-right argument evaluation loop of `evalCallExpr`. -/
def evalArgs (vm : VMSt) : AstF.ExprList → Except RuntimeError (List GoVal)
  | .nil => .ok []
  | .cons hd tl =>
    match evalExpr vm hd with
    | .error e => .error e
    | .ok v =>
      match evalArgs vm tl with
      | .error e => .error e
      | .ok vs => .ok (v :: vs)

/-- `evalTemplateLit`, from the wjs/vm evaluator: concatenate text
parts verbatim and interpolations stringified, in source order. -/
def evalParts (vm : VMSt) : AstF.TParts → Except RuntimeError String
  | .nil => .ok ""
  | .cons (.text _ s) tl =>
    match evalParts vm tl with
    | .error e => .error e
    | .ok rest => .ok (s ++ rest)
  | .cons (.interp _ e) tl =>
    match evalExpr vm e with
    | .error e => .error e
    | .ok v =>
      match evalParts vm tl with
      | .error er => .error er
      | .ok rest => .ok (stringifyGo v ++ rest)

end

/-- `evalLetStmt`, from the wjs/vm evaluator: evaluate the value, bind
(insert or overwrite) the name, and produce no value (Go returns
`nil, nil`). -/
def evalLetStmt (vm : VMSt) (nameStr : String) (value : AstF.Expr) :
    Except RuntimeError (GoVal × VMSt) :=
  match evalExpr vm value with
  | .error e => .error e
  | .ok v => .ok (.null, { vm with vars := setVar vm.vars nameStr v })

/-- `evalAssignStmt`, from the wjs/vm evaluator: the value is evaluated
first, then the target is resolved.  A member or index target mutates
the shared container in place in Go; the container checks and the
result value are modelled here, the aliased store is not (no claim
depends on aliasing). -/
def evalAssignStmt (vm : VMSt) (stmtPos : Pos) (target : AstF.Expr)
    (value : AstF.Expr) : Except RuntimeError (GoVal × VMSt) :=
  match evalExpr vm value with
  | .error e => .error e
  | .ok v =>
    match target with
    | .ident p name =>
      match lookupVar vm.vars name with
      | none => .error (NewRuntimeError p ("undefined variable: " ++ name))
      | some _ => .ok (v, { vm with vars := setVar vm.vars name v })
    | .member p object _ _fieldName =>
      match evalExpr vm object with
      | .error e => .error e
      | .ok objV =>
        match objV with
        | .val (.obj _) => .ok (v, vm)
        | _ => .error (NewRuntimeError p "cannot assign to member of non-object")
    | .index p targetE idxE =>
      match evalExpr vm targetE with
      | .error e => .error e
      | .ok targetV =>
        match evalExpr vm idxE with
        | .error e => .error e
        | .ok idxV =>
          match targetV with
          | .val (.arr elems) =>
            match idxV with
            | .val (.float q) =>
              let i := ratTrunc q
              if i < 0 ∨ (elems.length : Int) ≤ i then
                .error (NewRuntimeError p ("array index out of bounds: " ++ toString i))
              else .ok (v, vm)
            | _ => .error (NewRuntimeError p "array index must be a number")
          | .val (.obj _) =>
            match idxV with
            | .val (.str _) => .ok (v, vm)
            | _ => .error (NewRuntimeError p "object key must be a string")
          | _ => .error (NewRuntimeError p "cannot index assign to non-array/non-object")
    | _ => .error (NewRuntimeError stmtPos "invalid assignment target")

/-- `evalStmt`, from the wjs/vm evaluator. -/
def evalStmt (vm : VMSt) : AstF.Stmt → Except RuntimeError (GoVal × VMSt)
  | .letStmt _ _ name value => evalLetStmt vm name value
  | .assignStmt p target value => evalAssignStmt vm p target value
  | .exprStmt _ value =>
    match evalExpr vm value with
    | .error e => .error e
    | .ok v => .ok (v, vm)

/-- The running-last-value update of `Execute`: Go keeps the previous
last value whenever a statement's result is the nil interface. -/
def updLast (acc r : GoVal) : GoVal :=
  match r with
  | .null => acc
  | v => v

/-- The statement loop of `Execute`, carrying the running last value. -/
def executeLoop (vm : VMSt) (lastValue : GoVal) :
    List AstF.Stmt → GoVal × Option RuntimeError × VMSt
  | [] => (lastValue, none, vm)
  | s :: rest =>
    match evalStmt vm s with
    | .error e => (.null, some e, vm)
    | .ok (r, vm') => executeLoop vm' (updLast lastValue r) rest

/-- `Execute`, from the wjs/vm evaluator: walk the statements, keep the
last non-nil statement value, and on the first error return a nil value
together with the error. -/
def Execute (vm : VMSt) (stmts : List AstF.Stmt) : GoVal × Option RuntimeError × VMSt :=
  executeLoop vm .null stmts

/-- The sequence of per-statement values of a program, with the state
threaded through: the specification-side decomposition used to state
the last-value rule. -/
def evalResults (vm : VMSt) : List AstF.Stmt → Except RuntimeError (List GoVal × VMSt)
  | [] => .ok ([], vm)
  | s :: rest =>
    match evalStmt vm s with
    | .error e => .error e
    | .ok (r, vm') =>
      match evalResults vm' rest with
      | .error e => .error e
      | .ok (rs, vm'') => .ok (r :: rs, vm'')

end Vm

/-!
Helper lemmas shared by the claim theorems.
-/

/-- Projection form of the `Execute` loop: the returned value and error
are determined by the sequence of per-statement results — on success
the value is the fold that keeps the last non-nil result, on the first
error the value is nil and the error is returned. -/
theorem executeLoop_spec (stmts : List AstF.Stmt) :
    ∀ (vm : Vm.VMSt) (acc : Vm.GoVal),
      ((Vm.executeLoop vm acc stmts).1, (Vm.executeLoop vm acc stmts).2.1) =
        (match Vm.evalResults vm stmts with
         | .ok (rs, _) => (rs.foldl Vm.updLast acc, none)
         | .error e => (.null, some e)) := by
  induction stmts with
  | nil => intro vm acc; simp [Vm.executeLoop, Vm.evalResults]
  | cons s rest ih =>
    intro vm acc
    cases h : Vm.evalStmt vm s with
    | error e => simp [Vm.executeLoop, Vm.evalResults, h]
    | ok rv =>
      obtain ⟨r, vm'⟩ := rv
      have := ih vm' (Vm.updLast acc r)
      cases h2 : Vm.evalResults vm' rest with
      | error e =>
        simp only [Vm.executeLoop, Vm.evalResults, h, h2]
        simpa [h2] using this
      | ok rsf =>
        obtain ⟨rs, vmf⟩ := rsf
        simp only [Vm.executeLoop, Vm.evalResults, h, h2, List.foldl]
        simpa [h2] using this

/-!
Concrete claim inputs.
-/

/-- A generic source position used by the concrete claim inputs. -/
def cPos : Pos := ⟨1, 1, 0, ""⟩

/-- A distinctive source position used to show errors carry positions. -/
def opPos : Pos := ⟨3, 5, 10, "t"⟩

/-- The program `5 + 3;` over the VM's AST (claim C1). -/
def progAdd : List AstF.Stmt :=
  [.exprStmt cPos (.binary cPos (.numberLit cPos 5) "+" (.numberLit cPos 3))]

/-- The program `5 / 0;`, the binary node positioned at `opPos`. -/
def progDiv : List AstF.Stmt :=
  [.exprStmt opPos (.binary opPos (.numberLit cPos 5) "/" (.numberLit cPos 0))]

/-- The program `5 % 0;`, the binary node positioned at `opPos`. -/
def progMod : List AstF.Stmt :=
  [.exprStmt opPos (.binary opPos (.numberLit cPos 5) "%" (.numberLit cPos 0))]

/-- The statement `print();`, whose evaluation succeeds with the nil
value. -/
def printStmt : AstF.Stmt := .exprStmt cPos (.call cPos (.ident cPos "print") .nil)

/-- The program `5; print();` (claim C8): every statement succeeds and
the textually last statement is an expression statement whose value is
nil. -/
def progLastNull : List AstF.Stmt := [.exprStmt cPos (.numberLit cPos 5), printStmt]

/-- The program `y;` with `y` unbound (claim C9 witness). -/
def progUndef : List AstF.Stmt := [.exprStmt cPos (.ident cPos "y")]

/-- Token sequence of the source `@`: one illegal token, then EOF
(claim C2). -/
def toksIllegal : List Token := [⟨.ILLEGAL, "@", cPos⟩, ⟨.EOF, "", cPos⟩]

/-- Token sequence of the source `5 + 3` — no trailing semicolon
(claim C3). -/
def toksNoSemi : List Token :=
  [⟨.NUMBER, "5", cPos⟩, ⟨.PLUS, "+", cPos⟩, ⟨.NUMBER, "3", cPos⟩, ⟨.EOF, "", cPos⟩]

/-- Token sequence of the source `a.b = 1;` (claim C4). -/
def toksMemberAssign : List Token :=
  [⟨.IDENT, "a", cPos⟩, ⟨.DOT, ".", cPos⟩, ⟨.IDENT, "b", cPos⟩, ⟨.EQUAL, "=", cPos⟩,
   ⟨.NUMBER, "1", cPos⟩, ⟨.SEMICOLON, ";", cPos⟩, ⟨.EOF, "", cPos⟩]

/-- The raw lexeme of the template literal backtick Value is $\x7b1 + 2\x7d
backtick, as the lexer delivers it (claim C5). -/
def rawTemplate : String := "Value is $\x7b1 + 2\x7d"

/-- The TEMPLATE token carrying the raw template lexeme. -/
def templateTok : Token := ⟨.TEMPLATE, rawTemplate, cPos⟩

/-- On the token sequence `@ EOF` the statement parser either runs out
of fuel or returns nil without consuming any token: the default arm of
`parsePrimaryExpression` does not advance, so the parser state is
returned unchanged. -/
theorem parseStatement_stuck_illegal :
    ∀ f, Parser.parseStatement f ⟨toksIllegal, 0⟩ = .outOfFuel ∨
      Parser.parseStatement f ⟨toksIllegal, 0⟩ = .res none ⟨toksIllegal, 0⟩
  | 0 => .inl rfl
  | 1 => .inl rfl
  | 2 => .inl rfl
  | 3 => .inl rfl
  | 4 => .inl rfl
  | _ + 5 => .inr rfl

/-- The `ParseProgram` statement loop never finishes on `@ EOF`: each
iteration consumes no token, so the loop never reaches EOF regardless
of fuel. -/
theorem parseProgramLoop_stuck_illegal :
    ∀ (f : Nat) (acc : List AstIF.Stmt),
      Parser.parseProgramLoop f ⟨toksIllegal, 0⟩ acc = none := by
  intro f
  induction f with
  | zero => intro acc; rfl
  | succ f ih =>
    intro acc
    have hstep : Parser.parseProgramLoop (f + 1) ⟨toksIllegal, 0⟩ acc =
        (match Parser.parseStatement f ⟨toksIllegal, 0⟩ with
         | .outOfFuel => none
         | .nilDeref => none
         | .res stmt s' =>
           Parser.parseProgramLoop f s'
             (match stmt with | some st => st :: acc | none => acc)) := rfl
    rcases parseStatement_stuck_illegal f with h | h
    · rw [hstep, h]
    · rw [hstep, h]
      exact ih acc

/-!
Claim theorems.
-/

/-- Claim C1 (code_bug evidence): evaluating the program `5 + 3;`
yields the Float value 8 with no error — not an Integer 8.  The current
value model (wjs/vm/values.go) has no Integer variant at all: `IsNumber`
accepts only float64 and the evaluator performs float64 arithmetic, so
an arithmetic operation on two integral operands produces a Float. -/
theorem claim_C1_integer_addition_yields_float :
    (Vm.Execute (Vm.New "") progAdd).1 = .val (.float 8) ∧
    (Vm.Execute (Vm.New "") progAdd).2.1 = none := by
  constructor <;>
    norm_num [Vm.Execute, Vm.executeLoop, Vm.evalStmt, Vm.evalExpr, Vm.binaryDispatch,
      Vm.evalAdd, Vm.IsNumber, Vm.getFloat, Vm.New, Vm.lookupVar, Vm.updLast, progAdd]

/-- Claim C2 (code_bug evidence): on the token sequence of the source
`@` — an illegal token in statement position, then EOF — the statement
loop of `ParseProgram` never terminates: `parseStatement` returns nil
without consuming a token, so for every fuel budget the loop fails to
complete.  The claimed fail-fast stop with a reported failure does not
happen. -/
theorem claim_C2_parse_diverges_on_illegal_token :
    ∀ fuel, Parser.ParseProgram fuel toksIllegal = none := by
  intro fuel
  have h := parseProgramLoop_stuck_illegal fuel []
  simp [Parser.ParseProgram, toksIllegal] at h ⊢
  rw [h]

/-- Claim C3 (code_bug evidence): the token sequence of `5 + 3` — no
trailing semicolon — parses without any error into a program with one
expression statement: `expect(SEMICOLON)`'s result is discarded, so the
mandatory-semicolon rule is not enforced. -/
theorem claim_C3_missing_semicolon_accepted :
    Parser.ParseProgram 20 toksNoSemi =
      some { start := cPos,
             stmts := [.exprStmt cPos (.binary cPos (.numberLit cPos (some 5) none) "+"
                         (.numberLit cPos (some 3) none))] } := rfl

/-- Claim C4 (code_bug evidence): on the token sequence of `a.b = 1;`
the parser produces an expression statement covering only `a.b` — not
an assignment statement with a member-expression target.
`parseIdentStatement` looks only at the token immediately after the
identifier (here `.`), routes to `parseExpressionStatement`, and stops
after the postfix chain, leaving the cursor on `=` (position 3). -/
theorem claim_C4_member_assignment_not_recognized :
    Parser.parseStatement 20 ⟨toksMemberAssign, 0⟩ =
      .res (some (.exprStmt cPos (.member cPos (.ident cPos "a") cPos "b")))
        ⟨toksMemberAssign, 3⟩ := rfl

/-- Claim C5 (code_bug evidence): `parseTemplateLiteral` wraps the
whole raw template lexeme in a single text part (the source carries a
TODO for interpolation), and evaluating such a template yields the raw
text — for the template over `rawTemplate` the result is the string
"Value is $\x7b1 + 2\x7d", not "Value is 3". -/
theorem claim_C5_template_not_interpolated :
    (Parser.parseTemplateLiteral ⟨[templateTok, ⟨.EOF, "", cPos⟩], 0⟩).1 =
      some (.templateLit cPos (.cons (.text cPos rawTemplate) .nil)) ∧
    Vm.evalExpr (Vm.New "") (.templateLit cPos (.cons (.text cPos rawTemplate) .nil)) =
      .ok (.val (.str rawTemplate)) ∧
    rawTemplate ≠ "Value is 3" := by
  refine ⟨rfl, rfl, ?_⟩
  decide

/-- Claim C6 (code_bug evidence): lexing the source consisting of a
double quote and `abc` — end of input before the closing delimiter —
produces a token of type STRING carrying the partial text "abc", not an
ILLEGAL token: `NextToken` assigns the STRING type unconditionally and
`readString` stops at end of input exactly as at the delimiter. -/
theorem claim_C6_unterminated_string_is_string_token :
    (Lexer.NextToken 20 (Lexer.New "" "\"abc")).map (fun r => (r.1.type, r.1.lexeme)) =
      some (.STRING, "abc") ∧
    TokenType.STRING ≠ TokenType.ILLEGAL := by
  refine ⟨rfl, ?_⟩
  decide

/-- Claim C7 (confirmed): evaluating `5 / 0` fails with the runtime
error "division by zero" and `5 % 0` with "modulus by zero"; in both
cases execution halts with a nil result and the error carries the
source position of the failing expression (here `opPos`). -/
theorem claim_C7_division_and_modulus_by_zero :
    (Vm.Execute (Vm.New "") progDiv).2.1 = some ⟨opPos, "division by zero"⟩ ∧
    (Vm.Execute (Vm.New "") progDiv).1 = .null ∧
    (Vm.Execute (Vm.New "") progMod).2.1 = some ⟨opPos, "modulus by zero"⟩ ∧
    (Vm.Execute (Vm.New "") progMod).1 = .null := ⟨rfl, rfl, rfl, rfl⟩

/-- Claim C8 (counterexample): in the program `5; print();` every
statement evaluates without error and the textually last statement is
an expression statement whose value is nil/Null, yet `Execute` returns
the Float 5 of the first statement — the last expression statement's
value did not become the running last value, contrary to the claim
that the value of every expression statement does. -/
theorem claim_C8_counterexample_null_valued_exprstmt :
    Vm.evalStmt (Vm.New "") printStmt = .ok (.null, Vm.New "") ∧
    (Vm.Execute (Vm.New "") progLastNull).2.1 = none ∧
    (Vm.Execute (Vm.New "") progLastNull).1 = .val (.float 5) ∧
    Vm.GoVal.val (.float 5) ≠ Vm.GoVal.null := by
  refine ⟨rfl, rfl, rfl, ?_⟩
  intro h
  exact Vm.GoVal.noConfusion h

/-- Claim C8 (amended): the result of `Execute` is the fold of the
per-statement results that keeps the last non-nil value — let
statements produce no value, and the value of an expression or
assignment statement becomes the running last value exactly when it is
not Null (a nil/Null statement value is treated as absent and
skipped). -/
theorem claim_C8_last_value_skips_null :
    (∀ (vm : Vm.VMSt) (stmts : List AstF.Stmt),
      ((Vm.Execute vm stmts).1, (Vm.Execute vm stmts).2.1) =
        (match Vm.evalResults vm stmts with
         | .ok (rs, _) => (rs.foldl Vm.updLast .null, none)
         | .error e => (.null, some e))) ∧
    (∀ (vm : Vm.VMSt) (p q : Pos) (n : String) (v : AstF.Expr)
        (r : Vm.GoVal) (vm' : Vm.VMSt),
      Vm.evalStmt vm (.letStmt p q n v) = .ok (r, vm') → r = .null) := by
  constructor
  · intro vm stmts
    exact executeLoop_spec stmts vm .null
  · intro vm p q n v r vm' h
    simp only [Vm.evalStmt, Vm.evalLetStmt] at h
    cases hv : Vm.evalExpr vm v with
    | error e => rw [hv] at h; exact Except.noConfusion h
    | ok w =>
      rw [hv] at h
      injection h with h'
      exact (congrArg Prod.fst h').symm

/-- Witness for claim C8: a concrete let statement `let x = 5;`
evaluates successfully and, by the theorem, produces the nil value. -/
theorem claim_C8_last_value_skips_null_witness : Vm.GoVal.null = Vm.GoVal.null :=
  claim_C8_last_value_skips_null.2 (Vm.New "") cPos cPos "x" (.numberLit cPos 5)
    .null { vars := Vm.setVar (Vm.New "").vars "x" (.val (.float 5)), script := "" } rfl

/-- Claim C9 (confirmed): whenever `Execute` returns a runtime error,
the value component of its result is nil — any running last value from
earlier statements is discarded (`Execute` returns `nil, err`). -/
theorem claim_C9_error_result_has_nil_value :
    ∀ (vm : Vm.VMSt) (stmts : List AstF.Stmt) (e : Vm.RuntimeError),
      (Vm.Execute vm stmts).2.1 = some e → (Vm.Execute vm stmts).1 = .null := by
  intro vm stmts e herr
  have h := executeLoop_spec stmts vm .null
  cases hev : Vm.evalResults vm stmts with
  | error e' =>
    rw [hev] at h
    exact congrArg Prod.fst h
  | ok rsv =>
    rw [hev] at h
    have : (Vm.Execute vm stmts).2.1 = none := by
      have := congrArg Prod.snd h
      simpa using this
    rw [this] at herr
    exact Option.noConfusion herr

/-- Witness for claim C9: the program `y;` with `y` unbound fails with
"undefined variable: y" and the returned value is nil. -/
theorem claim_C9_error_result_has_nil_value_witness :
    (Vm.Execute (Vm.New "") progUndef).1 = .null :=
  claim_C9_error_result_has_nil_value (Vm.New "") progUndef
    ⟨cPos, "undefined variable: y"⟩ rfl

end Wjs
